import Mathlib

/-!
Verification of the audio decode / playback core of the Caribbean Voice Gen app.

The playback controller is embedded from `src/App.tsx` (`stopPlayback`,
`handleGenerate`, and the `source.onended` handler); the remote-response
extraction is embedded from `generateCaribbeanSpeech` in the gemini service
file.  The base64 / PCM decoder (`decode`, `decodeAudioData` from
`./utils/audio`) is not present in the repository sources, so it is modelled
from the specification (section 4.1) and marked as such on each definition.

React state hooks (`useState`, `useRef`) become fields of an explicit record
`AppState`; each handler becomes a function from `AppState` (plus the
environment's choices: remote-service outcome, platform audio-context
initialization success, whether the underlying `source.stop()` call throws)
to a new `AppState` together with the ordered list of externally visible
events it performs.

Platform model for the `ended` event: Web Audio fires `ended` on an
`AudioBufferSourceNode` whenever a started node stops — on natural buffer
end and equally after an explicit `stop()` call — and the code never
detaches `source.onended` before stopping.  The delivery is asynchronous
(a task queued right after the stop), so `stopThenEnded` and
`handleGenerateEnded` compose the synchronous handler with that deferred
delivery at the next scheduling point.
-/

/-- Externally visible actions performed by the playback controller.
`haltHandle h` is the `sourceRef.current.stop()` attempt on handle `h`;
`requestIssued` is the call to `generateCaribbeanSpeech`;
`startHandle h` is `source.start()` on the freshly created handle `h`;
`onCompleteInvoked` marks the `source.onended` completion handler running. -/
inductive Event where
  | haltHandle (h : Nat)
  | requestIssued
  | startHandle (h : Nat)
  | onCompleteInvoked
deriving Repr, DecidableEq

/-- The component state of `App.tsx`: the `useState` hooks `text`,
`isGenerating`, `isPlaying`, `error`, the refs `audioContextRef` (tracked as
a Boolean: whether a context has been created) and `sourceRef` (the
single active-handle slot, holding a handle identifier), plus `nextId`,
a counter used to give each created source node a fresh identity. -/
structure AppState where
  text : String
  isGenerating : Bool
  isPlaying : Bool
  error : Option String
  sourceRef : Option Nat
  audioCtx : Bool
  nextId : Nat
deriving Repr, DecidableEq

/-- The platform call `sourceRef.current.stop()`: it may throw
(InvalidStateError when the node already finished or was never started);
the flag chooses the platform's behaviour. -/
def sourceStop (stopThrows : Bool) : Except String Unit :=
  if stopThrows then Except.error "InvalidStateError" else Except.ok ()

/-- Embedding of `stopPlayback` (src/App.tsx lines 25-35): if the slot holds
a handle, attempt `stop()` on it inside try/catch (both outcomes are treated
identically — the comment in the source reads "Already stopped or not
started"), null the slot, and set `isPlaying` to false; otherwise just set
`isPlaying` to false. -/
def stopPlayback (s : AppState) (stopThrows : Bool) : AppState × List Event :=
  match s.sourceRef with
  | some h =>
    match sourceStop stopThrows with
    | Except.ok _ => ({ s with sourceRef := none, isPlaying := false }, [Event.haltHandle h])
    | Except.error _ => ({ s with sourceRef := none, isPlaying := false }, [Event.haltHandle h])
  | none => ({ s with isPlaying := false }, [])

/-- Embedding of the `source.onended` handler installed by `handleGenerate`
(src/App.tsx lines 76-78): its body is only `setIsPlaying(false)` — in
particular it does not touch `sourceRef`.  The platform fires `ended` once
per started node whenever that node stops: on natural buffer end and also
after an explicit `stop()` call, and the code never detaches the handler,
so this transition runs in both situations. -/
def onEnded (s : AppState) : AppState × List Event :=
  ({ s with isPlaying := false }, [Event.onCompleteInvoked])

/-- `stopPlayback` composed with the platform's deferred delivery of the
`ended` event.  `stop()` on a started, not-yet-ended node (pre-state
`isPlaying` with a handle in the slot) queues `ended`; the handler is still
attached, so it runs at the next scheduling point.  A stale already-finished
handle (slot occupied but `isPlaying = false`, the situation after natural
completion) fired its one `ended` already, so stopping it queues nothing. -/
def stopThenEnded (s : AppState) (stopThrows : Bool) : AppState × List Event :=
  let r1 := stopPlayback s stopThrows
  if s.sourceRef.isSome && s.isPlaying then
    let r2 := onEnded r1.1
    (r2.1, r1.2 ++ r2.2)
  else r1

/-- Outcome of the awaited `generateCaribbeanSpeech` call: it resolves with
an optional base64 string (optional because of the optional chaining in the
service, see `extractAudio`), or it rejects with an error message. -/
inductive ServiceResult where
  | ok (audio : Option String)
  | threw (msg : String)
deriving Repr, DecidableEq

/-- The environment's choices during one `handleGenerate` run: the remote
service outcome, whether `new AudioContext(...)` succeeds when needed, and
whether the underlying `stop()` on the previous source throws. -/
structure Env where
  service : ServiceResult
  ctxInitOk : Bool
  stopThrows : Bool
deriving Repr, DecidableEq

/-- The characters removed by `String.prototype.trim`: the ECMAScript
WhiteSpace set (tab, vertical tab, form feed, space, no-break space, BOM,
and the Unicode Space_Separator category: U+1680, U+2000-U+200A, U+202F,
U+205F, U+3000) together with the LineTerminator set (line feed, carriage
return, line separator U+2028, paragraph separator U+2029). -/
def isJsWhitespace (c : Char) : Bool :=
  c.toNat == 0x09 || c.toNat == 0x0A || c.toNat == 0x0B || c.toNat == 0x0C ||
  c.toNat == 0x0D || c.toNat == 0x20 || c.toNat == 0xA0 || c.toNat == 0x1680 ||
  (0x2000 ≤ c.toNat && c.toNat ≤ 0x200A) || c.toNat == 0x2028 ||
  c.toNat == 0x2029 || c.toNat == 0x202F || c.toNat == 0x205F ||
  c.toNat == 0x3000 || c.toNat == 0xFEFF

/-- JavaScript `text.trim()`: remove leading and trailing whitespace. -/
def jsTrim (s : String) : String :=
  String.mk (((s.data.dropWhile isJsWhitespace).reverse.dropWhile isJsWhitespace).reverse)

/-- Modelled from the spec: membership of the standard base64 alphabet
(`A`-`Z`, `a`-`z`, `0`-`9`, `+`, `/`); the decoder source
(`decode` in `./utils/audio`) is absent from the repository. -/
def isB64Char (c : Char) : Bool :=
  (65 ≤ c.toNat && c.toNat ≤ 90) || (97 ≤ c.toNat && c.toNat ≤ 122) ||
  (48 ≤ c.toNat && c.toNat ≤ 57) || c.toNat == 43 || c.toNat == 47

/-- Modelled from the spec: the 6-bit value of a base64 alphabet character
(0 on characters outside the alphabet, which validation rejects). -/
def b64val (c : Char) : Nat :=
  if 65 ≤ c.toNat ∧ c.toNat ≤ 90 then c.toNat - 65
  else if 97 ≤ c.toNat ∧ c.toNat ≤ 122 then c.toNat - 71
  else if 48 ≤ c.toNat ∧ c.toNat ≤ 57 then c.toNat + 4
  else if c.toNat = 43 then 62
  else if c.toNat = 47 then 63
  else 0

/-- Modelled from the spec: reassemble bytes from a list of 6-bit values,
three bytes per group of four values, fewer for a padded final group
(two values yield one byte, three values yield two bytes). -/
def b64bytes : List Nat → List Nat
  | a :: b :: c :: d :: rest =>
      (a * 4 + b / 16) :: ((b % 16) * 16 + c / 4) :: ((c % 4) * 64 + d) :: b64bytes rest
  | [a, b, c] => [a * 4 + b / 16, (b % 16) * 16 + c / 4]
  | [a, b] => [a * 4 + b / 16]
  | [_] => []
  | [] => []

/-- Length of the trailing run of `=` padding characters. -/
def trailingEq (s : String) : Nat :=
  (s.data.reverse.takeWhile (fun c => c == '=')).length

/-- Modelled from the spec (section 4.1, `decodeBase64`): standard base64
decoding to raw bytes; fails with `DecodeError` if the input contains
characters outside the base64 alphabet or has invalid padding (length not a
multiple of four, more than two `=`, or a character that is neither in the
alphabet nor trailing `=`).  The decoder source (`decode` in
`./utils/audio`) is absent from the repository. -/
def decodeBase64 (s : String) : Except String (List Nat) :=
  if s.data.length % 4 == 0 && trailingEq s ≤ 2 &&
     s.data.all (fun c => isB64Char c || c == '=') &&
     (s.data.take (s.data.length - trailingEq s)).all isB64Char then
    Except.ok (b64bytes ((s.data.take (s.data.length - trailingEq s)).map b64val))
  else
    Except.error "DecodeError"

/-- Modelled from the spec: a 2-byte little-endian pair read as a signed
16-bit integer in [-32768, 32767]. -/
def toInt16 (lo hi : Nat) : Int :=
  if lo + 256 * hi < 32768 then ((lo + 256 * hi : Nat) : Int)
  else ((lo + 256 * hi : Nat) : Int) - 65536

/-- Modelled from the spec (section 4.1, `toAudioBuffer`): each consecutive
little-endian byte pair becomes one normalized sample, the signed 16-bit
value divided by 32768; a trailing incomplete pair is discarded.  Samples
are exact rationals: every int16 value divided by 32768 is exactly
representable in the source's floating-point sample format, so the rational
model is bit-faithful. -/
def pcmToSamples : List Nat → List ℚ
  | lo :: hi :: rest => ((toInt16 lo hi : ℚ) / 32768) :: pcmToSamples rest
  | [_] => []
  | [] => []

/-- Modelled from the spec (section 3, AudioBuffer): fixed 24000 Hz mono
buffer holding the normalized sample sequence. -/
structure AudioBuffer where
  sampleRate : Nat
  channels : Nat
  samples : List ℚ
deriving Repr, DecidableEq

/-- Modelled from the spec: build the structured audio buffer from the
decoded PCM byte sequence. -/
def toAudioBuffer (bytes : List Nat) : AudioBuffer :=
  ⟨24000, 1, pcmToSamples bytes⟩

/-- The full decode pipeline: `toAudioBuffer` after `decodeBase64`. -/
def decodePipeline (s : String) : Except String AudioBuffer :=
  (decodeBase64 s).map toAudioBuffer

/-- The catch clause's message selection in `handleGenerate`
(src/App.tsx line 85): `err.message || "An error occurred during speech
generation."` — the fallback fires when the message is the empty string,
which is falsy in JavaScript. -/
def errMessage (msg : String) : String :=
  if msg = "" then "An error occurred during speech generation." else msg

/-- The part of `handleGenerate` (src/App.tsx lines 45-88) from the awaited
`generateCaribbeanSpeech` call onward: the try body with its catch and
finally clauses, as a function of the state after `stopPlayback` and of the
environment's choices.  In source order:
the awaited call may reject (caught; `err.message` with its falsy fallback
becomes the error);
`if (!base64Audio) throw new Error("Failed to generate audio data.")` —
`!base64Audio` is truthy both for an absent payload and for the empty
string, JavaScript falsiness;
initialize the audio context if absent (a platform failure there is caught
below; the platform exception's message is abstracted as the fixed string
"PlaybackUnavailable", the spec's name for this error kind);
`decodeAudioData(decode(base64Audio), ctx, 24000, 1)` — `decode` is the
spec-modelled `decodeBase64` (its source is absent from the repository) and
a `DecodeError` propagates to the catch, while `decodeAudioData` itself is
the total `toAudioBuffer`;
then create and start a new source node, store it in the slot, and set
`isPlaying`; the finally clause resets `isGenerating` on every path. -/
def generateTail (s2 : AppState) (env : Env) : AppState × List Event :=
  match env.service with
  | ServiceResult.threw msg =>
      ({ s2 with error := some (errMessage msg), isGenerating := false },
       [Event.requestIssued])
  | ServiceResult.ok none =>
      ({ s2 with error := some "Failed to generate audio data.", isGenerating := false },
       [Event.requestIssued])
  | ServiceResult.ok (some audio) =>
      if audio = "" then
        ({ s2 with error := some "Failed to generate audio data.", isGenerating := false },
         [Event.requestIssued])
      else if s2.audioCtx || env.ctxInitOk then
        match decodeBase64 audio with
        | Except.error msg =>
            ({ s2 with audioCtx := true, error := some (errMessage msg),
                       isGenerating := false },
             [Event.requestIssued])
        | Except.ok _bytes =>
            ({ s2 with audioCtx := true, sourceRef := some s2.nextId, isPlaying := true,
                       isGenerating := false, nextId := s2.nextId + 1 },
             [Event.requestIssued, Event.startHandle s2.nextId])
      else
        ({ s2 with error := some "PlaybackUnavailable", isGenerating := false },
         [Event.requestIssued])

/-- Embedding of `handleGenerate` (src/App.tsx lines 37-89): the empty-text
guard returns at once; otherwise clear the error, set `isGenerating`, stop
any current playback, then run the awaited tail (`generateTail`).  This
variant keeps only the code's own synchronous steps: the platform's
deferred `ended` delivery for the halted handle is composed in
`handleGenerateEnded`. -/
def handleGenerate (s : AppState) (env : Env) : AppState × List Event :=
  if jsTrim s.text = "" then
    ({ s with error := some "Please enter some text first." }, [])
  else
    let r2 := stopPlayback { s with error := none, isGenerating := true } env.stopThrows
    let r3 := generateTail r2.1 env
    (r3.1, r2.2 ++ r3.2)

/-- `handleGenerate` with the platform's deferred `ended` delivery for the
halted previous handle interleaved at the await boundary: when the previous
node was playing, its `ended` event (queued by `stop()`, handler never
detached) is delivered during the awaited service call, before the try body
resumes. -/
def handleGenerateEnded (s : AppState) (env : Env) : AppState × List Event :=
  if jsTrim s.text = "" then
    ({ s with error := some "Please enter some text first." }, [])
  else
    let r2 := stopThenEnded { s with error := none, isGenerating := true } env.stopThrows
    let r3 := generateTail r2.1 env
    (r3.1, r2.2 ++ r3.2)

/-- The `inlineData` field of a response part (gemini service). -/
structure InlineData where
  data : Option String
deriving Repr, DecidableEq

/-- A part of a response candidate's content (gemini service). -/
structure ResponsePart where
  inlineData : Option InlineData
deriving Repr, DecidableEq

/-- The content of a response candidate: `parts` is itself optional. -/
structure ResponseContent where
  parts : Option (List ResponsePart)
deriving Repr, DecidableEq

/-- One candidate of the remote response. -/
structure Candidate where
  content : Option ResponseContent
deriving Repr, DecidableEq

/-- The remote generate-content response: `candidates` is optional. -/
structure GenResponse where
  candidates : Option (List Candidate)
deriving Repr, DecidableEq

/-- Embedding of the return expression of `generateCaribbeanSpeech`
(src/unnamed/part_000):
`response.candidates?.[0]?.content?.parts?.[0]?.inlineData?.data` —
each `?.` propagates absence as `none` instead of throwing. -/
def extractAudio (r : GenResponse) : Option String :=
  ((((r.candidates.bind List.head?).bind Candidate.content).bind
      ResponseContent.parts).bind List.head?).bind
    (fun p => p.inlineData.bind InlineData.data)

/-- The chain `candidates[0].content.parts[0].inlineData.data` is absent at
some level: no candidate list, an empty candidate list, no content, no part
list, an empty part list, no inline data, or no data field. -/
def chainAbsent (r : GenResponse) : Bool :=
  match r.candidates with
  | none => true
  | some [] => true
  | some (c :: _) =>
    match c.content with
    | none => true
    | some ct =>
      match ct.parts with
      | none => true
      | some [] => true
      | some (p :: _) =>
        match p.inlineData with
        | none => true
        | some idt => idt.data.isNone

theorem jsTrim_of_all_ws (s : String) (h : ∀ c ∈ s.data, isJsWhitespace c = true) :
    jsTrim s = "" := by
  have h1 : s.data.dropWhile isJsWhitespace = [] :=
    List.dropWhile_eq_nil_iff.mpr h
  simp [jsTrim, h1]

theorem pcm_length : ∀ bs : List Nat, (pcmToSamples bs).length = bs.length / 2
  | [] => by simp [pcmToSamples]
  | [_] => by simp [pcmToSamples]
  | _ :: _ :: rest => by
      simp only [pcmToSamples, List.length_cons, pcm_length rest]
      omega

theorem toInt16_bounds (lo hi : Nat) (hlo : lo < 256) (hhi : hi < 256) :
    -32768 ≤ toInt16 lo hi ∧ toInt16 lo hi ≤ 32767 := by
  unfold toInt16
  split <;> omega

theorem b64val_lt (c : Char) : b64val c < 64 := by
  unfold b64val
  split_ifs <;> omega

theorem b64bytes_lt : ∀ vs : List Nat, (∀ v ∈ vs, v < 64) →
    ∀ x ∈ b64bytes vs, x < 256
  | a :: b :: c :: d :: rest, hv => by
      intro x hx
      have ha := hv a (by simp)
      have hb := hv b (by simp)
      have hc := hv c (by simp)
      have hd := hv d (by simp)
      simp only [b64bytes, List.mem_cons] at hx
      rcases hx with rfl | rfl | rfl | hx
      · omega
      · omega
      · omega
      · exact b64bytes_lt rest (fun v hvm => hv v (by simp [hvm])) x hx
  | [a, b, c], hv => by
      intro x hx
      have ha := hv a (by simp)
      have hb := hv b (by simp)
      have hc := hv c (by simp)
      simp only [b64bytes, List.mem_cons, List.not_mem_nil, or_false] at hx
      rcases hx with rfl | rfl <;> omega
  | [a, b], hv => by
      intro x hx
      have ha := hv a (by simp)
      have hb := hv b (by simp)
      simp only [b64bytes, List.mem_cons, List.not_mem_nil, or_false] at hx
      subst hx
      omega
  | [], _ => by intro x hx; simp [b64bytes] at hx
  | [_], _ => by intro x hx; simp [b64bytes] at hx

theorem pcm_range : ∀ bs : List Nat, (∀ x ∈ bs, x < 256) →
    ∀ v ∈ pcmToSamples bs, -1 ≤ v ∧ v ≤ 1
  | lo :: hi :: rest, hb => by
      intro v hv
      simp only [pcmToSamples, List.mem_cons] at hv
      rcases hv with rfl | hv
      · have h16 := toInt16_bounds lo hi (hb lo (by simp)) (hb hi (by simp))
        have hlo : ((-32768 : Int) : ℚ) ≤ ((toInt16 lo hi : Int) : ℚ) := by
          exact_mod_cast h16.1
        have hhi : ((toInt16 lo hi : Int) : ℚ) ≤ ((32767 : Int) : ℚ) := by
          exact_mod_cast h16.2
        push_cast at hlo hhi
        constructor
        · rw [le_div_iff₀ (by norm_num : (0 : ℚ) < 32768)]
          linarith
        · rw [div_le_one (by norm_num : (0 : ℚ) < 32768)]
          linarith
      · exact pcm_range rest (fun x hxm => hb x (by simp [hxm])) v hv
  | [], _ => by intro v hv; simp [pcmToSamples] at hv
  | [_], _ => by intro v hv; simp [pcmToSamples] at hv

theorem decode_bytes_lt (s : String) (bs : List Nat)
    (h : decodeBase64 s = Except.ok bs) : ∀ x ∈ bs, x < 256 := by
  unfold decodeBase64 at h
  split at h
  · have hbs : bs = b64bytes ((s.data.take (s.data.length - trailingEq s)).map b64val) := by
      injection h with h'
      exact h'.symm
    subst hbs
    apply b64bytes_lt
    intro v hv
    simp only [List.mem_map] at hv
    obtain ⟨c, _, rfl⟩ := hv
    exact b64val_lt c
  · exact absurd h (by simp)

/-- Claim C1 as stated is false on the code: stopping an active handle does
not keep its onComplete handler from running.  `stopPlayback` never detaches
`source.onended`, and the platform fires `ended` after an explicit `stop()`
on a playing node as well, so the completion handler is invoked as a result
of the stop.  Concretely, from a Playing state whose slot holds handle 0,
the stop followed by the queued `ended` delivery invokes onComplete. -/
theorem stop_invokes_onComplete_counterexample :
    Event.onCompleteInvoked ∈
      (stopThenEnded ⟨"hi", false, true, none, some 0, true, 1⟩ false).2 := by
  decide

/-- Claim C1 amended: calling stop() on an active (playing) handle halts it
and transitions the observable state to Idle, and the synchronous stop path
itself invokes no callback; but because the handler is never detached and
the platform fires `ended` after an explicit stop too, the handle's
onComplete handler IS invoked once afterwards — its body only re-asserts
Idle, so the post-state is still Idle with the slot empty.  Stop is thus not
distinguished from natural completion at the handler level. -/
theorem stop_halts_idle_handler_fires (s : AppState) (b : Bool) (h : Nat)
    (hsrc : s.sourceRef = some h) (hplay : s.isPlaying = true) :
    (stopThenEnded s b).1.isPlaying = false ∧
    (stopThenEnded s b).1.sourceRef = none ∧
    (stopThenEnded s b).2 = [Event.haltHandle h, Event.onCompleteInvoked] ∧
    (stopPlayback s b).2 = [Event.haltHandle h] := by
  cases b <;>
    simp [stopThenEnded, stopPlayback, onEnded, sourceStop, hsrc, hplay]

theorem stop_halts_idle_handler_fires_witness :
    (stopThenEnded ⟨"hi", false, true, none, some 0, true, 1⟩ false).1.isPlaying = false ∧
    (stopThenEnded ⟨"hi", false, true, none, some 0, true, 1⟩ false).1.sourceRef = none ∧
    (stopThenEnded ⟨"hi", false, true, none, some 0, true, 1⟩ false).2 =
      [Event.haltHandle 0, Event.onCompleteInvoked] ∧
    (stopPlayback ⟨"hi", false, true, none, some 0, true, 1⟩ false).2 =
      [Event.haltHandle 0] :=
  stop_halts_idle_handler_fires ⟨"hi", false, true, none, some 0, true, 1⟩ false 0 rfl rfl

/-- Claim C2 as stated is false on the code: starting over an active
playback does stop the previous handle first, but that handle's onComplete
handler is invoked — `stop()` queues its `ended` event, the handler is
never detached, and the delivery lands during the awaited service call.
Concretely, from a Playing state a successful restart run invokes
onComplete. -/
theorem start_invokes_old_onComplete_counterexample :
    Event.onCompleteInvoked ∈
      (handleGenerateEnded ⟨"hi", false, true, none, some 0, true, 1⟩
        ⟨ServiceResult.ok (some "AIA="), true, false⟩).2 := by
  decide

/-- Claim C2 amended: calling start (a successful `handleGenerate` run,
with a non-empty payload that decodes) while a handle is active first halts
the previous handle before the new one starts (stop-before-start, so at
most one handle is ever live, and the single slot ends holding exactly the
new handle) and the post-state is Playing; however the previous handle's
onComplete handler IS invoked — delivered during the await, where its body
only re-asserts not-playing before the new start. -/
theorem start_while_playing_ended (s : AppState) (env : Env) (a : String)
    (bs : List Nat) (h : Nat)
    (hplay : s.isPlaying = true) (hsrc : s.sourceRef = some h)
    (htext : jsTrim s.text ≠ "") (hsvc : env.service = ServiceResult.ok (some a))
    (hne : a ≠ "") (hdec : decodeBase64 a = Except.ok bs)
    (hctx : s.audioCtx = true ∨ env.ctxInitOk = true) :
    (handleGenerateEnded s env).1.isPlaying = true ∧
    (handleGenerateEnded s env).1.sourceRef = some s.nextId ∧
    (handleGenerateEnded s env).2 =
      [Event.haltHandle h, Event.onCompleteInvoked, Event.requestIssued,
       Event.startHandle s.nextId] := by
  rcases hctx with hctx | hctx <;> cases hb : env.stopThrows <;>
    simp [handleGenerateEnded, stopThenEnded, stopPlayback, generateTail, onEnded,
      sourceStop, hsrc, hplay, hsvc, htext, hne, hdec, hctx, hb]

theorem start_while_playing_ended_witness :
    (handleGenerateEnded ⟨"hi", false, true, none, some 0, true, 1⟩
        ⟨ServiceResult.ok (some "AIA="), true, false⟩).1.isPlaying = true ∧
    (handleGenerateEnded ⟨"hi", false, true, none, some 0, true, 1⟩
        ⟨ServiceResult.ok (some "AIA="), true, false⟩).1.sourceRef = some 1 ∧
    (handleGenerateEnded ⟨"hi", false, true, none, some 0, true, 1⟩
        ⟨ServiceResult.ok (some "AIA="), true, false⟩).2 =
      [Event.haltHandle 0, Event.onCompleteInvoked, Event.requestIssued,
       Event.startHandle 1] :=
  start_while_playing_ended ⟨"hi", false, true, none, some 0, true, 1⟩
    ⟨ServiceResult.ok (some "AIA="), true, false⟩ "AIA=" [0, 128] 0 rfl rfl
    (by decide) rfl (by decide) rfl (Or.inl rfl)

/-- Claim C3 as stated is false on the code: the `onended` handler does not
clear the active-handle slot.  Concretely, from a Playing state whose slot
holds handle 0, natural completion leaves the slot still holding handle 0. -/
theorem natural_end_keeps_slot_counterexample :
    (onEnded ⟨"hi", false, true, none, some 0, true, 1⟩).1.sourceRef ≠ none := by
  decide

/-- Claim C3 amended: on natural completion the handler transitions the
observable state to Idle (`isPlaying = false`) and onComplete runs exactly
once, but the active-handle slot is left unchanged — the finished handle
stays in the slot until the next stop() or start(). -/
theorem natural_end_idle_onComplete_once (s : AppState) :
    (onEnded s).1.isPlaying = false ∧
    (onEnded s).2 = [Event.onCompleteInvoked] ∧
    (onEnded s).1.sourceRef = s.sourceRef ∧
    (onEnded s).1 = { s with isPlaying := false } :=
  ⟨rfl, rfl, rfl, rfl⟩

/-- Claim C4: stop() never throws — its outcome is independent of whether
the underlying platform `stop()` call errors (already finished or never
started is treated as already-stopped) — when no handle is active it only
re-asserts Idle, and in every case the post-state is Idle. -/
theorem stop_never_throws_idle (s : AppState) (b : Bool) :
    (stopPlayback s b).1.isPlaying = false ∧
    stopPlayback s b = stopPlayback s false ∧
    (s.sourceRef = none → stopPlayback s b = ({ s with isPlaying := false }, [])) := by
  cases hs : s.sourceRef <;> cases b <;> simp [stopPlayback, sourceStop, hs]

theorem stop_never_throws_idle_witness :
    (stopPlayback ⟨"", false, false, none, none, false, 0⟩ true).1.isPlaying = false ∧
    stopPlayback ⟨"", false, false, none, none, false, 0⟩ true =
      ({ text := "", isGenerating := false, isPlaying := false, error := none,
         sourceRef := none, audioCtx := false, nextId := 0 }, []) :=
  ⟨(stop_never_throws_idle ⟨"", false, false, none, none, false, 0⟩ true).1,
   (stop_never_throws_idle ⟨"", false, false, none, none, false, 0⟩ true).2.2 rfl⟩

/-- Claim C5: when a start attempt actually reaches audio-output
initialization (non-empty text, a non-empty payload, no context yet) and
the platform cannot initialize it, the failure is caught and surfaced as
the run's error, no source node is ever started, and the active-handle slot
ends Idle. -/
theorem start_playback_unavailable (s : AppState) (env : Env) (a : String)
    (htext : jsTrim s.text ≠ "") (hsvc : env.service = ServiceResult.ok (some a))
    (hne : a ≠ "") (hctx : s.audioCtx = false) (hinit : env.ctxInitOk = false) :
    (handleGenerate s env).1.sourceRef = none ∧
    (handleGenerate s env).1.isPlaying = false ∧
    (handleGenerate s env).1.error = some "PlaybackUnavailable" ∧
    ∀ hId, Event.startHandle hId ∉ (handleGenerate s env).2 := by
  cases hs : s.sourceRef <;> cases hb : env.stopThrows <;>
    simp [handleGenerate, generateTail, stopPlayback, sourceStop, htext, hsvc, hne,
      hctx, hinit, hs, hb]

theorem start_playback_unavailable_witness :
    (handleGenerate ⟨"hi", false, false, none, none, false, 0⟩
        ⟨ServiceResult.ok (some "AIA="), false, false⟩).1.sourceRef = none ∧
    (handleGenerate ⟨"hi", false, false, none, none, false, 0⟩
        ⟨ServiceResult.ok (some "AIA="), false, false⟩).1.isPlaying = false ∧
    (handleGenerate ⟨"hi", false, false, none, none, false, 0⟩
        ⟨ServiceResult.ok (some "AIA="), false, false⟩).1.error =
      some "PlaybackUnavailable" ∧
    ∀ hId, Event.startHandle hId ∉
      (handleGenerate ⟨"hi", false, false, none, none, false, 0⟩
        ⟨ServiceResult.ok (some "AIA="), false, false⟩).2 :=
  start_playback_unavailable ⟨"hi", false, false, none, none, false, 0⟩
    ⟨ServiceResult.ok (some "AIA="), false, false⟩ "AIA=" (by decide) rfl (by decide)
    rfl rfl

/-- Claim C9: whenever the chain
`candidates[0].content.parts[0].inlineData.data` is absent at any level, the
extraction returns `none` (undefined) instead of throwing. -/
theorem extract_absent_none (r : GenResponse) (h : chainAbsent r = true) :
    extractAudio r = none := by
  obtain ⟨cands⟩ := r
  match cands with
  | none => rfl
  | some [] => rfl
  | some (⟨none⟩ :: _) => rfl
  | some (⟨some ⟨none⟩⟩ :: _) => rfl
  | some (⟨some ⟨some []⟩⟩ :: _) => rfl
  | some (⟨some ⟨some (⟨none⟩ :: _)⟩⟩ :: _) => rfl
  | some (⟨some ⟨some (⟨some ⟨none⟩⟩ :: _)⟩⟩ :: _) => rfl
  | some (⟨some ⟨some (⟨some ⟨some d⟩⟩ :: _)⟩⟩ :: _) => simp [chainAbsent] at h

theorem extract_absent_none_witness :
    extractAudio ⟨none⟩ = none :=
  extract_absent_none ⟨none⟩ rfl

/-- Claim C10: when the input text is empty or all whitespace,
`handleGenerate` only sets the error message and returns: no request is
issued, no stop happens, and playing state, slot, and the rest of the state
are unchanged. -/
theorem empty_text_sets_error_only (s : AppState) (env : Env)
    (h : ∀ c ∈ s.text.data, isJsWhitespace c = true) :
    handleGenerate s env = ({ s with error := some "Please enter some text first." }, []) ∧
    (handleGenerate s env).1.isPlaying = s.isPlaying ∧
    (handleGenerate s env).1.sourceRef = s.sourceRef ∧
    (handleGenerate s env).1.isGenerating = s.isGenerating ∧
    (handleGenerate s env).2 = [] := by
  have ht : jsTrim s.text = "" := jsTrim_of_all_ws s.text h
  simp [handleGenerate, ht]

theorem empty_text_sets_error_only_witness :
    handleGenerate ⟨"  ", false, true, none, some 5, true, 6⟩
        ⟨ServiceResult.ok none, false, false⟩ =
      ({ text := "  ", isGenerating := false, isPlaying := true,
         error := some "Please enter some text first.", sourceRef := some 5,
         audioCtx := true, nextId := 6 }, []) ∧
    (handleGenerate ⟨"  ", false, true, none, some 5, true, 6⟩
        ⟨ServiceResult.ok none, false, false⟩).1.isPlaying = true ∧
    (handleGenerate ⟨"  ", false, true, none, some 5, true, 6⟩
        ⟨ServiceResult.ok none, false, false⟩).1.sourceRef = some 5 :=
  ⟨(empty_text_sets_error_only ⟨"  ", false, true, none, some 5, true, 6⟩
      ⟨ServiceResult.ok none, false, false⟩ (by decide)).1,
   (empty_text_sets_error_only ⟨"  ", false, true, none, some 5, true, 6⟩
      ⟨ServiceResult.ok none, false, false⟩ (by decide)).2.1,
   (empty_text_sets_error_only ⟨"  ", false, true, none, some 5, true, 6⟩
      ⟨ServiceResult.ok none, false, false⟩ (by decide)).2.2.1⟩

/-- Claim C6: for every valid base64 string, the decode pipeline produces
exactly floor(decodedByteLength / 2) samples, each the little-endian signed
16-bit value of a consecutive byte pair divided by 32768, all in [-1, 1];
bytes 0x00,0x80 give -1 and 0xFF,0x7F give 32767/32768. -/
theorem decode_pipeline_sample_count_range :
    (∀ (s : String) (bs : List Nat), decodeBase64 s = Except.ok bs →
       (toAudioBuffer bs).samples.length = bs.length / 2 ∧
       ∀ v ∈ (toAudioBuffer bs).samples, -1 ≤ v ∧ v ≤ 1) ∧
    (toAudioBuffer [0x00, 0x80]).samples = [(-1 : ℚ)] ∧
    (toAudioBuffer [0xFF, 0x7F]).samples = [(32767 : ℚ) / 32768] := by
  refine ⟨fun s bs hdec => ⟨?_, ?_⟩, ?_, ?_⟩
  · exact pcm_length bs
  · exact pcm_range bs (decode_bytes_lt s bs hdec)
  · norm_num [toAudioBuffer, pcmToSamples, toInt16]
  · norm_num [toAudioBuffer, pcmToSamples, toInt16]

theorem decode_pipeline_sample_count_range_witness :
    decodeBase64 "AIA=" = Except.ok [0, 128] ∧
    (toAudioBuffer [0, 128]).samples.length = [0, 128].length / 2 ∧
    ∀ v ∈ (toAudioBuffer [0, 128]).samples, -1 ≤ v ∧ v ≤ 1 :=
  ⟨rfl, (decode_pipeline_sample_count_range.1 "AIA=" [0, 128] rfl).1,
   (decode_pipeline_sample_count_range.1 "AIA=" [0, 128] rfl).2⟩

/-- Claim C7: any input containing a character outside the base64 alphabet
(other than padding), or with invalid padding (length not a multiple of
four, or more than two trailing padding characters), makes `decodeBase64`
fail with DecodeError and produce no output bytes. -/
theorem decode_invalid_errors (s : String)
    (h : (∃ c ∈ s.data, isB64Char c = false ∧ c ≠ '=') ∨
         s.data.length % 4 ≠ 0 ∨ 2 < trailingEq s) :
    ∃ msg, decodeBase64 s = Except.error msg := by
  refine ⟨"DecodeError", ?_⟩
  unfold decodeBase64
  split
  case isTrue hcond =>
    exfalso
    simp only [Bool.and_eq_true, beq_iff_eq, decide_eq_true_eq, List.all_eq_true,
      Bool.or_eq_true] at hcond
    obtain ⟨⟨⟨hlen, hpad⟩, hall⟩, -⟩ := hcond
    rcases h with ⟨c, hm, hb, hne⟩ | hlen' | hpad'
    · rcases hall c hm with hc | hc
      · simp [hb] at hc
      · exact hne (by simpa using hc)
    · exact hlen' hlen
    · omega
  case isFalse => rfl

theorem decode_invalid_errors_witness :
    (∃ c ∈ "!!!".data, isB64Char c = false ∧ c ≠ '=') ∧
    ∃ msg, decodeBase64 "!!!" = Except.error msg :=
  ⟨by decide, decode_invalid_errors "!!!" (Or.inl (by decide))⟩

/-- Claim C8: the decode pipeline is deterministic — on identical inputs it
yields identical output buffers. -/
theorem decode_pipeline_deterministic (s₁ s₂ : String) (h : s₁ = s₂) :
    decodePipeline s₁ = decodePipeline s₂ := by
  rw [h]

theorem decode_pipeline_deterministic_witness :
    decodePipeline "AIA=" = decodePipeline "AIA=" :=
  decode_pipeline_deterministic "AIA=" "AIA=" rfl
